import Mathlib

/-
Verification of the DocSnap document-scanning app's orchestration logic:
coordinate mapping between display and native image space (CornerEditor.tsx),
the corner model, the destination-size computation and filter pipeline of
DocumentProcessor.tsx, its buffer allocation/release discipline, and the
camera-capture readiness and dimension-fallback logic of ImageInput.tsx.
Numeric values (JS numbers) are modelled as exact rationals; the Euclidean
length computed by Math.hypot is modelled over the reals.
-/

namespace DocSnap

/-- Model of the app's `Point` type: a pair of coordinates in native image
pixel space (`CornerEditor.tsx`, `export type Point`). -/
structure Point where
  x : ℚ
  y : ℚ
deriving DecidableEq

/-- Model of the rendered-to-native scale factor state of `CornerEditor`
(`scale = { x: imageWidth / rect.width, y: imageHeight / rect.height }`). -/
structure Scale where
  x : ℚ
  y : ℚ
deriving DecidableEq

/-- A corner set is an ordered 4-tuple of points, indices 0..3 standing for
top-left, top-right, bottom-right, bottom-left, exactly as the app's
`[Point, Point, Point, Point]` tuples. -/
abbrev CornerSet := Fin 4 → Point

/-- Embedding of `toDisplayCoords` from `CornerEditor.tsx`:
`(p) => ({ x: p.x / scale.x, y: p.y / scale.y })`. -/
def toDisplayCoords (scale : Scale) (p : Point) : Point :=
  ⟨p.x / scale.x, p.y / scale.y⟩

/-- Embedding of `toImageCoords` from `CornerEditor.tsx`:
`x: Math.max(0, Math.min(imageWidth, displayX * scale.x))`,
`y: Math.max(0, Math.min(imageHeight, displayY * scale.y))`. -/
def toImageCoords (scale : Scale) (imageWidth imageHeight : ℚ)
    (displayX displayY : ℚ) : Point :=
  ⟨max 0 (min imageWidth (displayX * scale.x)),
   max 0 (min imageHeight (displayY * scale.y))⟩

/-- Embedding of `getDefaultCorners` from `CornerEditor.tsx`: a margin of
`Math.min(width, height) * 0.05` inset from each image corner. -/
def getDefaultCorners (width height : ℚ) : CornerSet :=
  ![⟨min width height * (5 / 100), min width height * (5 / 100)⟩,
    ⟨width - min width height * (5 / 100), min width height * (5 / 100)⟩,
    ⟨width - min width height * (5 / 100), height - min width height * (5 / 100)⟩,
    ⟨min width height * (5 / 100), height - min width height * (5 / 100)⟩]

/-- Embedding of the corner replacement performed by `handlePointerMove` in
`CornerEditor.tsx`: `const newCorners = [...displayCorners];
newCorners[activeIndex] = newPoint;` — a single-index update of the tuple. -/
def setCorner (c : CornerSet) (i : Fin 4) (p : Point) : CornerSet :=
  Function.update c i p

/-- Claim C3: for every display coordinate pair, every scale factor and every
(nonnegative) image dimensions, `toImageCoords` returns a point inside
`[0, width] × [0, height]`, regardless of out-of-range input coordinates. -/
theorem toImageCoords_mem_bounds (scale : Scale) (width height : ℚ)
    (displayX displayY : ℚ) (hw : 0 ≤ width) (hh : 0 ≤ height) :
    0 ≤ (toImageCoords scale width height displayX displayY).x ∧
      (toImageCoords scale width height displayX displayY).x ≤ width ∧
      0 ≤ (toImageCoords scale width height displayX displayY).y ∧
      (toImageCoords scale width height displayX displayY).y ≤ height := by
  refine ⟨le_max_left _ _, max_le hw (min_le_left _ _),
    le_max_left _ _, max_le hh (min_le_left _ _)⟩

/-- Witness for C3 at a concrete overshooting input: display point
`(1000, -7)` at scale `(2, 3)` on a `640 × 480` image stays in bounds. -/
theorem toImageCoords_mem_bounds_witness :
    0 ≤ (toImageCoords ⟨2, 3⟩ 640 480 1000 (-7)).x ∧
      (toImageCoords ⟨2, 3⟩ 640 480 1000 (-7)).x ≤ 640 ∧
      0 ≤ (toImageCoords ⟨2, 3⟩ 640 480 1000 (-7)).y ∧
      (toImageCoords ⟨2, 3⟩ 640 480 1000 (-7)).y ≤ 480 :=
  toImageCoords_mem_bounds ⟨2, 3⟩ 640 480 1000 (-7) (by norm_num) (by norm_num)

/-- Counterexample to claim C4 as stated: at scale `(2, 2)` on a `10 × 10`
image, the point `p = (2, 2)` is in bounds (so no clamping occurs anywhere in
the composition), yet `toDisplay (toImage (toDisplay p)) = (1, 1) ≠ p`; the
triple composition returns the display-space image of `p`, not `p` itself. -/
theorem toDisplay_toImage_toDisplay_ne :
    (0 : ℚ) < 2 ∧ (0 : ℚ) ≤ 2 ∧ (2 : ℚ) ≤ 10 ∧
      toDisplayCoords ⟨2, 2⟩
        (toImageCoords ⟨2, 2⟩ 10 10
          (toDisplayCoords ⟨2, 2⟩ ⟨2, 2⟩).x
          (toDisplayCoords ⟨2, 2⟩ ⟨2, 2⟩).y) ≠ (⟨2, 2⟩ : Point) := by
  refine ⟨by norm_num, by norm_num, by norm_num, ?_⟩
  intro h
  have hx := congrArg Point.x h
  simp only [toDisplayCoords, toImageCoords] at hx
  norm_num at hx

/-- Claim C4 (amended): for positive scale factors and points whose image-space
coordinates are unclamped (inside `[0, width] × [0, height]`), `toImageCoords`
inverts `toDisplayCoords` exactly — and consequently the triple composition
`toDisplay ∘ toImage ∘ toDisplay` returns `toDisplay p` (not `p` itself). -/
theorem toImage_toDisplay_roundtrip (scale : Scale) (width height : ℚ)
    (p : Point) (hx : 0 < scale.x) (hy : 0 < scale.y)
    (hpx0 : 0 ≤ p.x) (hpxw : p.x ≤ width) (hpy0 : 0 ≤ p.y) (hpyh : p.y ≤ height) :
    toImageCoords scale width height
        (toDisplayCoords scale p).x (toDisplayCoords scale p).y = p ∧
      toDisplayCoords scale
          (toImageCoords scale width height
            (toDisplayCoords scale p).x (toDisplayCoords scale p).y)
        = toDisplayCoords scale p := by
  have hx' : scale.x ≠ 0 := ne_of_gt hx
  have hy' : scale.y ≠ 0 := ne_of_gt hy
  have hcx : p.x / scale.x * scale.x = p.x := div_mul_cancel₀ _ hx'
  have hcy : p.y / scale.y * scale.y = p.y := div_mul_cancel₀ _ hy'
  have himg : toImageCoords scale width height
      (toDisplayCoords scale p).x (toDisplayCoords scale p).y = p := by
    simp only [toImageCoords, toDisplayCoords, hcx, hcy]
    cases p with
    | mk px py =>
      simp only [Point.mk.injEq]
      constructor
      · rw [min_eq_right hpxw, max_eq_right hpx0]
      · rw [min_eq_right hpyh, max_eq_right hpy0]
  exact ⟨himg, by rw [himg]⟩

/-- Witness for C4's amended theorem at scale `(2, 2)`, image `10 × 10`,
point `(2, 2)`. -/
theorem toImage_toDisplay_roundtrip_witness :
    toImageCoords ⟨2, 2⟩ 10 10
        (toDisplayCoords ⟨2, 2⟩ ⟨2, 2⟩).x (toDisplayCoords ⟨2, 2⟩ ⟨2, 2⟩).y
      = (⟨2, 2⟩ : Point) :=
  (toImage_toDisplay_roundtrip ⟨2, 2⟩ 10 10 ⟨2, 2⟩ (by norm_num) (by norm_num)
    (by norm_num) (by norm_num) (by norm_num) (by norm_num)).1

/-- Claim C5: for positive dimensions, `getDefaultCorners` yields four points
inside `[0, width] × [0, height]` forming an axis-aligned rectangle of
positive area, each corner inset by exactly `0.05 * min width height` from the
corresponding image corner. -/
theorem getDefaultCorners_spec (width height : ℚ)
    (hw : 0 < width) (hh : 0 < height) :
    (∀ i : Fin 4, 0 ≤ (getDefaultCorners width height i).x ∧
        (getDefaultCorners width height i).x ≤ width ∧
        0 ≤ (getDefaultCorners width height i).y ∧
        (getDefaultCorners width height i).y ≤ height) ∧
      (getDefaultCorners width height 0
          = ⟨min width height * (5 / 100), min width height * (5 / 100)⟩ ∧
        getDefaultCorners width height 1
          = ⟨width - min width height * (5 / 100), min width height * (5 / 100)⟩ ∧
        getDefaultCorners width height 2
          = ⟨width - min width height * (5 / 100),
             height - min width height * (5 / 100)⟩ ∧
        getDefaultCorners width height 3
          = ⟨min width height * (5 / 100),
             height - min width height * (5 / 100)⟩) ∧
      ((getDefaultCorners width height 0).y = (getDefaultCorners width height 1).y ∧
        (getDefaultCorners width height 1).x = (getDefaultCorners width height 2).x ∧
        (getDefaultCorners width height 2).y = (getDefaultCorners width height 3).y ∧
        (getDefaultCorners width height 3).x = (getDefaultCorners width height 0).x) ∧
      0 < (getDefaultCorners width height 1).x - (getDefaultCorners width height 0).x ∧
      0 < (getDefaultCorners width height 3).y - (getDefaultCorners width height 0).y := by
  have hmw : min width height ≤ width := min_le_left _ _
  have hmh : min width height ≤ height := min_le_right _ _
  have hm0 : 0 < min width height := lt_min hw hh
  have hmargin0 : 0 ≤ min width height * (5 / 100) := by positivity
  have hmarginw : min width height * (5 / 100) ≤ width := by nlinarith
  have hmarginh : min width height * (5 / 100) ≤ height := by nlinarith
  have hwidth2 : min width height * (5 / 100) < width - min width height * (5 / 100) := by
    nlinarith
  have hheight2 : min width height * (5 / 100) < height - min width height * (5 / 100) := by
    nlinarith
  have hwm : (0 : ℚ) ≤ width - min width height * (5 / 100) := by linarith
  have hwle : width - min width height * (5 / 100) ≤ width := by linarith
  have hhm : (0 : ℚ) ≤ height - min width height * (5 / 100) := by linarith
  have hhle : height - min width height * (5 / 100) ≤ height := by linarith
  refine ⟨?_, ?_, ?_, ?_, ?_⟩
  · intro i
    fin_cases i
    · exact ⟨hmargin0, hmarginw, hmargin0, hmarginh⟩
    · exact ⟨hwm, hwle, hmargin0, hmarginh⟩
    · exact ⟨hwm, hwle, hhm, hhle⟩
    · exact ⟨hmargin0, hmarginw, hhm, hhle⟩
  · exact ⟨rfl, rfl, rfl, rfl⟩
  · exact ⟨rfl, rfl, rfl, rfl⟩
  · show (0 : ℚ) < (width - min width height * (5 / 100)) - min width height * (5 / 100)
    linarith
  · show (0 : ℚ) < (height - min width height * (5 / 100)) - min width height * (5 / 100)
    linarith

/-- Witness for C5 at a `1000 × 800` image: margin is `40`, and for instance
corner 0 is `(40, 40)` and lies in bounds with positive rectangle sides. -/
theorem getDefaultCorners_spec_witness :
    0 ≤ (getDefaultCorners 1000 800 0).x ∧
      (getDefaultCorners 1000 800 0).x ≤ 1000 ∧
      getDefaultCorners 1000 800 0 = (⟨40, 40⟩ : Point) ∧
      0 < (getDefaultCorners 1000 800 1).x - (getDefaultCorners 1000 800 0).x := by
  have h := getDefaultCorners_spec 1000 800 (by norm_num) (by norm_num)
  refine ⟨(h.1 0).1, (h.1 0).2.1, ?_, h.2.2.2.1⟩
  rw [h.2.1.1]
  show Point.mk (min (1000 : ℚ) 800 * (5 / 100)) (min (1000 : ℚ) 800 * (5 / 100)) = _
  norm_num [min_def]

/-- Claim C6: replacing corner `i` (as `handlePointerMove` does on drag)
yields a corner set whose entry `i` is the new point and whose other three
entries are identical to the input's, the fixed ordering being preserved. -/
theorem setCorner_spec (c : CornerSet) (i : Fin 4) (p : Point) :
    setCorner c i p i = p ∧ ∀ j : Fin 4, j ≠ i → setCorner c i p j = c j := by
  unfold setCorner
  exact ⟨Function.update_same i p c, fun j hj => Function.update_noteq hj p c⟩

/-- Witness for C6: updating corner 2 of the default corners of a `10 × 10`
image to `(7, 7)` sets entry 2 and keeps entry 0. -/
theorem setCorner_spec_witness :
    setCorner (getDefaultCorners 10 10) 2 ⟨7, 7⟩ 2 = (⟨7, 7⟩ : Point) ∧
      setCorner (getDefaultCorners 10 10) 2 ⟨7, 7⟩ 0 = getDefaultCorners 10 10 0 :=
  ⟨(setCorner_spec (getDefaultCorners 10 10) 2 ⟨7, 7⟩).1,
    (setCorner_spec (getDefaultCorners 10 10) 2 ⟨7, 7⟩).2 0 (by decide)⟩

/-- Embedding of JavaScript's `Math.hypot(dx, dy)` as used by
`processDocument` in `DocumentProcessor.tsx`: the Euclidean length
`sqrt(dx² + dy²)`, over the reals. -/
noncomputable def hypot (dx dy : ℚ) : ℝ :=
  Real.sqrt ((dx : ℝ) ^ 2 + (dy : ℝ) ^ 2)

/-- Embedding of `dstWidth = Math.max(w1, w2)` from `processDocument`, where
`w1 = hypot(corners[1] - corners[0])` and `w2 = hypot(corners[2] - corners[3])`. -/
noncomputable def dstWidth (c : CornerSet) : ℝ :=
  max (hypot ((c 1).x - (c 0).x) ((c 1).y - (c 0).y))
    (hypot ((c 2).x - (c 3).x) ((c 2).y - (c 3).y))

/-- Embedding of `dstHeight = Math.max(h1, h2)` from `processDocument`, where
`h1 = hypot(corners[3] - corners[0])` and `h2 = hypot(corners[2] - corners[1])`. -/
noncomputable def dstHeight (c : CornerSet) : ℝ :=
  max (hypot ((c 3).x - (c 0).x) ((c 3).y - (c 0).y))
    (hypot ((c 2).x - (c 1).x) ((c 2).y - (c 1).y))

/-- Corner set of an axis-aligned `a × b` rectangle with top-left corner
`(x, y)`, listed in the app's fixed TL, TR, BR, BL order. -/
def axisAlignedRect (x y a b : ℚ) : CornerSet :=
  ![⟨x, y⟩, ⟨x + a, y⟩, ⟨x + a, y + b⟩, ⟨x, y + b⟩]

/-- Claim C1: the destination raster size is per axis the larger of the two
opposing-edge Euclidean lengths (stated against the independent Euclidean
modulus on `ℂ`), and for corners forming an axis-aligned `a × b` rectangle
the destination size is exactly `a × b`. -/
theorem dstSize_spec :
    (∀ c : CornerSet,
        dstWidth c
            = max (Complex.abs ⟨((c 1).x : ℝ) - ((c 0).x : ℝ), ((c 1).y : ℝ) - ((c 0).y : ℝ)⟩)
              (Complex.abs ⟨((c 2).x : ℝ) - ((c 3).x : ℝ), ((c 2).y : ℝ) - ((c 3).y : ℝ)⟩) ∧
          dstHeight c
            = max (Complex.abs ⟨((c 3).x : ℝ) - ((c 0).x : ℝ), ((c 3).y : ℝ) - ((c 0).y : ℝ)⟩)
              (Complex.abs ⟨((c 2).x : ℝ) - ((c 1).x : ℝ), ((c 2).y : ℝ) - ((c 1).y : ℝ)⟩)) ∧
      ∀ x y a b : ℚ, 0 ≤ a → 0 ≤ b →
        dstWidth (axisAlignedRect x y a b) = (a : ℝ) ∧
          dstHeight (axisAlignedRect x y a b) = (b : ℝ) := by
  have habs : ∀ u v : ℝ, Complex.abs ⟨u, v⟩ = Real.sqrt (u ^ 2 + v ^ 2) := by
    intro u v
    rw [Complex.abs_apply, Complex.normSq_mk]
    congr 1
    ring
  have hhyp : ∀ p q : ℚ, hypot p q = Real.sqrt (((p : ℝ)) ^ 2 + ((q : ℝ)) ^ 2) :=
    fun p q => rfl
  constructor
  · intro c
    constructor
    · rw [dstWidth, habs, habs, hhyp, hhyp]
      push_cast
      ring_nf
    · rw [dstHeight, habs, habs, hhyp, hhyp]
      push_cast
      ring_nf
  · intro x y a b ha hb
    have ha' : (0 : ℝ) ≤ (a : ℝ) := by exact_mod_cast ha
    have hb' : (0 : ℝ) ≤ (b : ℝ) := by exact_mod_cast hb
    have hha : hypot a 0 = (a : ℝ) := by
      rw [hhyp]
      norm_num
      exact Real.sqrt_sq ha'
    have hhb : hypot 0 b = (b : ℝ) := by
      rw [hhyp]
      norm_num
      exact Real.sqrt_sq hb'
    have e0 : axisAlignedRect x y a b 0 = ⟨x, y⟩ := rfl
    have e1 : axisAlignedRect x y a b 1 = ⟨x + a, y⟩ := rfl
    have e2 : axisAlignedRect x y a b 2 = ⟨x + a, y + b⟩ := rfl
    have e3 : axisAlignedRect x y a b 3 = ⟨x, y + b⟩ := rfl
    have s1 : x + a - x = a := by ring
    have s2 : y - y = (0 : ℚ) := by ring
    have s3 : y + b - (y + b) = (0 : ℚ) := by ring
    have s4 : x - x = (0 : ℚ) := by ring
    have s5 : y + b - y = b := by ring
    have s6 : x + a - (x + a) = (0 : ℚ) := by ring
    constructor
    · rw [dstWidth, e0, e1, e2, e3]
      simp only [s1, s2, s3]
      rw [max_self, hha]
    · rw [dstHeight, e0, e1, e2, e3]
      simp only [s4, s5, s6]
      rw [max_self, hhb]

/-- Witness for C1 at the axis-aligned `3 × 4` rectangle with top-left `(0, 0)`:
the destination size is `3 × 4`. -/
theorem dstSize_spec_witness :
    dstWidth (axisAlignedRect 0 0 3 4) = ((3 : ℚ) : ℝ) ∧
      dstHeight (axisAlignedRect 0 0 3 4) = ((4 : ℚ) : ℝ) :=
  dstSize_spec.2 0 0 3 4 (by norm_num) (by norm_num)

/-- Embedding of `const alpha = contrast / 100` from `processDocument`. -/
def contrastAlpha (contrast : ℚ) : ℚ := contrast / 100

/-- Embedding of `const beta = (1 - alpha) * 128` from `processDocument`. -/
def contrastBeta (contrast : ℚ) : ℚ := (1 - contrastAlpha contrast) * 128

/-- Per-pixel model of OpenCV's `convertScaleAbs`: `saturate_cast<uchar>` of
the rounded absolute value of the linear remap `v * alpha + beta`. -/
def convertScaleAbsPixel (alpha beta : ℚ) (v : ℕ) : ℕ :=
  min 255 (Int.toNat ⌊|(v : ℚ) * alpha + beta| + 1 / 2⌋)

/-- The contrast stage of `processDocument` applied to a working buffer of
8-bit channel values: `cv.convertScaleAbs(work, contrastMat, alpha, beta)`. -/
def contrastStage (contrast : ℚ) (buf : List ℕ) : List ℕ :=
  buf.map (convertScaleAbsPixel (contrastAlpha contrast) (contrastBeta contrast))

/-- Claim C7: the contrast stage remaps with `alpha = contrast / 100` and
`beta = (1 - alpha) * 128`, and at `contrast = 100` it is the identity on any
8-bit working buffer (`alpha = 1`, `beta = 0`). -/
theorem contrastStage_id_at_100 :
    contrastAlpha 100 = 1 ∧ contrastBeta 100 = 0 ∧
      (∀ v : ℕ, v ≤ 255 → convertScaleAbsPixel (contrastAlpha 100) (contrastBeta 100) v = v) ∧
      ∀ buf : List ℕ, (∀ v ∈ buf, v ≤ 255) → contrastStage 100 buf = buf := by
  have halpha : contrastAlpha 100 = 1 := by norm_num [contrastAlpha]
  have hbeta : contrastBeta 100 = 0 := by norm_num [contrastBeta, contrastAlpha]
  have hpix : ∀ v : ℕ, v ≤ 255 → convertScaleAbsPixel (contrastAlpha 100) (contrastBeta 100) v = v := by
    intro v hv
    rw [halpha, hbeta]
    unfold convertScaleAbsPixel
    have h1 : |(v : ℚ) * 1 + 0| = (v : ℚ) := by
      rw [mul_one, add_zero]
      exact abs_of_nonneg (by positivity)
    rw [h1]
    have h2 : ⌊(v : ℚ) + 1 / 2⌋ = (v : ℤ) := by
      rw [Int.floor_eq_iff]
      constructor
      · push_cast
        linarith
      · push_cast
        linarith
    rw [h2, Int.toNat_natCast]
    exact min_eq_right hv
  refine ⟨halpha, hbeta, hpix, ?_⟩
  intro buf hbuf
  unfold contrastStage
  calc buf.map (convertScaleAbsPixel (contrastAlpha 100) (contrastBeta 100))
      = buf.map id := List.map_congr_left fun a ha => hpix a (hbuf a ha)
    _ = buf := List.map_id buf

/-- Witness for C7 at the buffer `[0, 128, 255]`: the pixel map fixes `128`
and the stage fixes the buffer. -/
theorem contrastStage_id_at_100_witness :
    convertScaleAbsPixel (contrastAlpha 100) (contrastBeta 100) 128 = 128 ∧
      contrastStage 100 [0, 128, 255] = [0, 128, 255] :=
  ⟨contrastStage_id_at_100.2.2.1 128 (by norm_num),
    contrastStage_id_at_100.2.2.2 [0, 128, 255] (by
      intro v hv
      simp only [List.mem_cons, List.not_mem_nil, or_false] at hv
      rcases hv with h | h | h <;> omega)⟩

/-- The binarization levels of `DocumentProcessor.tsx`
(`type BinarizeLevel = "off" | "light" | "medium" | "strong"`). -/
inductive BinarizeLevel where
  | off : BinarizeLevel
  | light : BinarizeLevel
  | medium : BinarizeLevel
  | strong : BinarizeLevel
deriving DecidableEq

/-- Embedding of the `binParams` record of `processDocument`: the
`(blockSize, C)` pair used by `adaptiveThreshold` for each non-off level;
`none` for `off`, whose guard skips the stage. -/
def binParams : BinarizeLevel → Option (ℕ × ℕ)
  | BinarizeLevel.light => some (31, 5)
  | BinarizeLevel.medium => some (21, 8)
  | BinarizeLevel.strong => some (11, 10)
  | BinarizeLevel.off => none

/-- The vision-library operations `processDocument` invokes on the working
buffer after the warp, each recorded with the parameters passed at the call
site. -/
inductive CvOp where
  | warpPerspective : CvOp
  | convertScaleAbs : ℚ → ℚ → CvOp
  | gaussianBlur : ℚ → CvOp
  | addWeighted : ℚ → ℚ → ℚ → CvOp
  | cvtColorRGBA2GRAY : CvOp
  | adaptiveThreshold : ℕ → ℕ → ℕ → CvOp
  | cvtColorGRAY2RGBA : CvOp
deriving DecidableEq

/-- The sequence of buffer-transforming operations `processDocument` performs
for the given filter parameters: warp, then `convertScaleAbs`, then (only if
`sharpness > 0`) blur and weighted blend, then (only if `binarize != off`)
grayscale conversion, adaptive threshold with the level's `(blockSize, C)`,
and conversion back to RGBA. -/
def pipelineOps (contrast sharpness : ℚ) (binarize : BinarizeLevel) : List CvOp :=
  [CvOp.warpPerspective,
    CvOp.convertScaleAbs (contrastAlpha contrast) (contrastBeta contrast)]
    ++ (if 0 < sharpness then
          [CvOp.gaussianBlur 3,
            CvOp.addWeighted (1 + sharpness / 50) (-(sharpness / 50)) 0]
        else [])
    ++ (match binParams binarize with
        | some (bs, c) =>
            [CvOp.cvtColorRGBA2GRAY, CvOp.adaptiveThreshold 255 bs c,
              CvOp.cvtColorGRAY2RGBA]
        | none => [])

/-- Claim C8: the binarization stage runs exactly when `binarize ≠ off`; when
it runs it appends grayscale conversion, adaptive thresholding with the
per-level pairs `light = (31, 5)`, `medium = (21, 8)`, `strong = (11, 10)`,
and conversion back to RGBA; when `off`, the pipeline consists of the
warp/contrast/sharpen operations only. -/
theorem binarize_stage_spec (contrast sharpness : ℚ) (b : BinarizeLevel) :
    (CvOp.cvtColorRGBA2GRAY ∈ pipelineOps contrast sharpness b ↔ b ≠ BinarizeLevel.off) ∧
      (b ≠ BinarizeLevel.off →
        ∃ bs c, binParams b = some (bs, c) ∧
          pipelineOps contrast sharpness b
            = pipelineOps contrast sharpness BinarizeLevel.off
                ++ [CvOp.cvtColorRGBA2GRAY, CvOp.adaptiveThreshold 255 bs c,
                  CvOp.cvtColorGRAY2RGBA]) ∧
      binParams BinarizeLevel.light = some (31, 5) ∧
      binParams BinarizeLevel.medium = some (21, 8) ∧
      binParams BinarizeLevel.strong = some (11, 10) ∧
      pipelineOps contrast sharpness BinarizeLevel.off
        = [CvOp.warpPerspective,
            CvOp.convertScaleAbs (contrastAlpha contrast) (contrastBeta contrast)]
            ++ (if 0 < sharpness then
                  [CvOp.gaussianBlur 3,
                    CvOp.addWeighted (1 + sharpness / 50) (-(sharpness / 50)) 0]
                else []) := by
  refine ⟨?_, ?_, rfl, rfl, rfl, ?_⟩
  · cases b <;> by_cases hs : 0 < sharpness <;>
      simp [pipelineOps, binParams, hs]
  · intro hb
    cases b with
    | off => exact absurd rfl hb
    | light =>
        exact ⟨31, 5, rfl, by simp [pipelineOps, binParams]⟩
    | medium =>
        exact ⟨21, 8, rfl, by simp [pipelineOps, binParams]⟩
    | strong =>
        exact ⟨11, 10, rfl, by simp [pipelineOps, binParams]⟩
  · simp [pipelineOps, binParams]

/-- Witness for C8 at `contrast = 200`, `sharpness = 0`, level `light`: the
grayscale op is present and the pipeline is the off-pipeline followed by the
`(31, 5)` binarization triple. -/
theorem binarize_stage_spec_witness :
    CvOp.cvtColorRGBA2GRAY ∈ pipelineOps 200 0 BinarizeLevel.light ∧
      ∃ bs c, binParams BinarizeLevel.light = some (bs, c) ∧
        pipelineOps 200 0 BinarizeLevel.light
          = pipelineOps 200 0 BinarizeLevel.off
              ++ [CvOp.cvtColorRGBA2GRAY, CvOp.adaptiveThreshold 255 bs c,
                CvOp.cvtColorGRAY2RGBA] :=
  ⟨(binarize_stage_spec 200 0 BinarizeLevel.light).1.mpr (by decide),
    (binarize_stage_spec 200 0 BinarizeLevel.light).2.1 (by decide)⟩

/-- Embedding of the initial `contrast` state of `DocumentProcessor`
(`useState(200)`). -/
def initialContrast : ℚ := 200

/-- Embedding of the initial `sharpness` state of `DocumentProcessor`
(`useState(0)`). -/
def initialSharpness : ℚ := 0

/-- Embedding of the initial `binarize` state of `DocumentProcessor`
(`useState<BinarizeLevel>("light")`). -/
def initialBinarize : BinarizeLevel := BinarizeLevel.light

/-- Claim C10: the processor starts with `binarize = light` (not `off`),
`contrast = 200` and `sharpness = 0`, so a run with untouched parameters
performs the binarization stage (grayscale, `(31, 5)` adaptive threshold,
back to RGBA). -/
theorem initial_state_runs_binarize :
    initialBinarize = BinarizeLevel.light ∧
      initialBinarize ≠ BinarizeLevel.off ∧
      initialContrast = 200 ∧ initialSharpness = 0 ∧
      CvOp.cvtColorRGBA2GRAY
          ∈ pipelineOps initialContrast initialSharpness initialBinarize ∧
      CvOp.adaptiveThreshold 255 31 5
          ∈ pipelineOps initialContrast initialSharpness initialBinarize := by
  refine ⟨rfl, by decide, rfl, rfl, ?_, ?_⟩ <;>
    simp [pipelineOps, binParams, initialContrast, initialSharpness, initialBinarize]

/-- Allocation-accounting state for one `processDocument` invocation: a count
of vision-library calls made so far (used to pick a failure point), the next
fresh buffer id, and the ids of currently allocated, not-yet-deleted buffers. -/
structure MatHeap where
  calls : ℕ
  nextId : ℕ
  live : List ℕ
deriving DecidableEq

/-- The empty heap at the start of an invocation. -/
def MatHeap.init : MatHeap := ⟨0, 0, []⟩

/-- Advance the call counter past one vision-library call. -/
def tick (s : MatHeap) : MatHeap := {s with calls := s.calls + 1}

/-- Allocate a fresh buffer (a `new cv.Mat()` or a Mat returned by a library
call), returning its id. -/
def allocMat (s : MatHeap) : ℕ × MatHeap :=
  (s.nextId, {s with nextId := s.nextId + 1, live := s.live ++ [s.nextId]})

/-- Release a buffer (`mat.delete()`). -/
def deleteMat (i : ℕ) (s : MatHeap) : MatHeap := {s with live := s.live.erase i}

/-- A fallible vision-library call that returns a fresh Mat (`cv.imread`,
`cv.matFromArray`, `cv.getPerspectiveTransform`): throws instead of
allocating when the failure oracle selects this call site. -/
def allocCall (failAt : Option ℕ) (s : MatHeap) : Option ℕ × MatHeap :=
  if failAt = some s.calls then (none, tick s)
  else
    let r := allocMat (tick s)
    (some r.1, r.2)

/-- A fallible vision-library call that writes into pre-allocated buffers
(`warpPerspective`, `convertScaleAbs`, `GaussianBlur`, `addWeighted`,
`cvtColor`, `adaptiveThreshold`, `imshow`); returns whether it succeeded. -/
def opCall (failAt : Option ℕ) (s : MatHeap) : Bool × MatHeap :=
  (!(decide (failAt = some s.calls)), tick s)

/-- Allocation trace of the contrast stage: `contrastMat = new cv.Mat();
convertScaleAbs(work, contrastMat, ...); work.delete(); work = contrastMat`.
Returns (succeeded, current work id, heap). -/
def contrastStageAlloc (failAt : Option ℕ) (work : ℕ) (s : MatHeap) :
    Bool × ℕ × MatHeap :=
  let r := allocMat s
  let o := opCall failAt r.2
  if o.1 then (true, r.1, deleteMat work o.2)
  else (false, work, o.2)

/-- Allocation trace of the sharpen stage (runs only when `sharpness > 0`):
blurred and sharpResult buffers, `GaussianBlur` then `addWeighted`, then
`blurred.delete(); work.delete(); work = sharpResult`. -/
def sharpenStageAlloc (sharpness : ℚ) (failAt : Option ℕ) (work : ℕ)
    (s : MatHeap) : Bool × ℕ × MatHeap :=
  if 0 < sharpness then
    let rb := allocMat s
    let o1 := opCall failAt rb.2
    if o1.1 then
      let rs := allocMat o1.2
      let o2 := opCall failAt rs.2
      if o2.1 then (true, rs.1, deleteMat work (deleteMat rb.1 o2.2))
      else (false, work, o2.2)
    else (false, work, o1.2)
  else (true, work, s)

/-- Allocation trace of the binarization stage (runs only when
`binarize != off`): gray, binary and rgba buffers, `cvtColor`,
`adaptiveThreshold`, `cvtColor`, then `gray.delete(); binary.delete();
work.delete(); work = rgba`. -/
def binarizeStageAlloc (binarize : BinarizeLevel) (failAt : Option ℕ)
    (work : ℕ) (s : MatHeap) : Bool × ℕ × MatHeap :=
  match binParams binarize with
  | none => (true, work, s)
  | some _ =>
    let rg := allocMat s
    let o1 := opCall failAt rg.2
    if o1.1 then
      let rb := allocMat o1.2
      let o2 := opCall failAt rb.2
      if o2.1 then
        let rr := allocMat o2.2
        let o3 := opCall failAt rr.2
        if o3.1 then
          (true, rr.1, deleteMat work (deleteMat rb.1 (deleteMat rg.1 o3.2)))
        else (false, work, o3.2)
      else (false, work, o2.2)
    else (false, work, o1.2)

/-- Allocation trace of the final render (`cv.imshow(canvas, work)`). -/
def renderStageAlloc (failAt : Option ℕ) (work : ℕ) (s : MatHeap) :
    Bool × ℕ × MatHeap :=
  let o := opCall failAt s
  (o.1, work, o.2)

/-- The inner `try { ... } finally { work.delete(); }` block of
`processDocument`: the stage chain with early exit on a thrown error, the
finally clause releasing whatever buffer `work` refers to at exit. -/
def innerTryAlloc (sharpness : ℚ) (binarize : BinarizeLevel)
    (failAt : Option ℕ) (work : ℕ) (s : MatHeap) : Bool × MatHeap :=
  let c := contrastStageAlloc failAt work s
  if c.1 then
    let sh := sharpenStageAlloc sharpness failAt c.2.1 c.2.2
    if sh.1 then
      let bi := binarizeStageAlloc binarize failAt sh.2.1 sh.2.2
      if bi.1 then
        let re := renderStageAlloc failAt bi.2.1 bi.2.2
        (re.1, deleteMat re.2.1 re.2.2)
      else (false, deleteMat bi.2.1 bi.2.2)
    else (false, deleteMat sh.2.1 sh.2.2)
  else (false, deleteMat c.2.1 c.2.2)

/-- Allocation trace of one whole `processDocument` invocation under a
failure oracle `failAt` (the index of the vision-library call that throws,
if any). Call sites in order: `getOpenCV` (0), `imread` (1), `matFromArray`
twice (2, 3), `getPerspectiveTransform` (4), `warpPerspective` (5), then the
stage calls. The outer `catch` surfaces the error without releasing
anything; the returned heap is the state when the invocation returns. -/
def processDocumentAlloc (sharpness : ℚ) (binarize : BinarizeLevel)
    (failAt : Option ℕ) : MatHeap :=
  let g := opCall failAt MatHeap.init
  if g.1 then
    match allocCall failAt g.2 with
    | (none, s1) => s1
    | (some src, s1) =>
      match allocCall failAt s1 with
      | (none, s2) => s2
      | (some srcPoints, s2) =>
        match allocCall failAt s2 with
        | (none, s3) => s3
        | (some dstPoints, s3) =>
          match allocCall failAt s3 with
          | (none, s4) => s4
          | (some m, s4) =>
            let w := allocMat s4
            let o := opCall failAt w.2
            if o.1 then
              let s5 :=
                deleteMat m (deleteMat dstPoints
                  (deleteMat srcPoints (deleteMat src o.2)))
              (innerTryAlloc sharpness binarize failAt w.1 s5).2
            else o.2
  else g.2

/-- Counterexample to claim C2 as stated: when the homography computation
(`getPerspectiveTransform`, call site 4) throws, the invocation returns with
the source matrix and both corner-point matrices (buffer ids 0, 1, 2) still
allocated — intermediate buffers outlive the call on this error path. -/
theorem processDocumentAlloc_leak_on_homography_error :
    (processDocumentAlloc 0 BinarizeLevel.light (some 4)).live = [0, 1, 2] ∧
      (processDocumentAlloc 0 BinarizeLevel.light (some 4)).live ≠ [] := by
  decide

/-- Claim C2 (amended): on an invocation in which no stage throws, every
intermediate buffer allocated during the invocation is released before it
returns; error paths do not enjoy this guarantee. -/
theorem processDocumentAlloc_success_releases_all (sharpness : ℚ)
    (binarize : BinarizeLevel) :
    (processDocumentAlloc sharpness binarize none).live = [] := by
  by_cases hs : 0 < sharpness <;> cases binarize <;>
    simp only [processDocumentAlloc, innerTryAlloc, sharpenStageAlloc, hs,
      if_true, if_false, ite_true, ite_false] <;>
    decide

/-- The readiness signals that can set `isVideoReady` after `startCamera` in
`ImageInput.tsx`: the video element's `loadedmetadata` event, or the 2000 ms
fallback timeout. -/
inductive ReadySignal where
  | metadataLoaded : ReadySignal
  | timeoutElapsed : ReadySignal
deriving DecidableEq

/-- The bounded readiness timeout `setTimeout(..., 2000)` from
`startCamera`. -/
def readyTimeoutMs : ℕ := 2000

/-- The `isVideoReady` flag after a sequence of readiness signals:
initialized to `false` by `startCamera`; `onloadedmetadata` sets it to
`true`; the timeout callback runs `setIsVideoReady((r) => r || true)`. -/
def isVideoReadyAfter (signals : List ReadySignal) : Bool :=
  signals.foldl
    (fun r sig =>
      match sig with
      | ReadySignal.metadataLoaded => true
      | ReadySignal.timeoutElapsed => r || true)
    false

/-- The capture button is enabled exactly when `isVideoReady` holds
(`disabled={!isVideoReady}`). -/
def captureEnabled (signals : List ReadySignal) : Bool :=
  isVideoReadyAfter signals

/-- The dimension fallback of `capturePhoto`: if the video frame buffer
reports a zero dimension, use the track settings — but only when both
settings dimensions are present and nonzero (JS truthiness of
`settings?.width && settings?.height`). -/
def fallbackDims (videoWidth videoHeight : ℕ)
    (trackSettings : Option (ℕ × ℕ)) : ℕ × ℕ :=
  if videoWidth = 0 ∨ videoHeight = 0 then
    match trackSettings with
    | some st => if st.1 ≠ 0 ∧ st.2 ≠ 0 then st else (videoWidth, videoHeight)
    | none => (videoWidth, videoHeight)
  else (videoWidth, videoHeight)

/-- The capture size `capturePhoto` uses: the fallback-resolved dimensions,
or no capture at all (an error message instead) when they are still zero. -/
def captureDims (videoWidth videoHeight : ℕ)
    (trackSettings : Option (ℕ × ℕ)) : Option (ℕ × ℕ) :=
  if (fallbackDims videoWidth videoHeight trackSettings).1 = 0 ∨
      (fallbackDims videoWidth videoHeight trackSettings).2 = 0 then none
  else some (fallbackDims videoWidth videoHeight trackSettings)

/-- Claim C9: capture starts disabled and is enabled exactly once a
readiness signal (frame metadata or the bounded 2000 ms timeout) has
arrived; capture with a zero-dimension frame buffer falls back to nonzero
track-settings dimensions; and no capture with a zero dimension is ever
produced. -/
theorem capture_readiness_and_fallback :
    captureEnabled [] = false ∧
      (∀ signals : List ReadySignal, captureEnabled signals = true ↔ signals ≠ []) ∧
      readyTimeoutMs = 2000 ∧
      (∀ vw vh sw sh : ℕ, (vw = 0 ∨ vh = 0) → sw ≠ 0 → sh ≠ 0 →
        captureDims vw vh (some (sw, sh)) = some (sw, sh)) ∧
      ∀ vw vh ts w h, captureDims vw vh ts = some (w, h) → w ≠ 0 ∧ h ≠ 0 := by
  have hstep : ∀ (t : List ReadySignal),
      t.foldl
        (fun r sig =>
          match sig with
          | ReadySignal.metadataLoaded => true
          | ReadySignal.timeoutElapsed => r || true)
        true = true := by
    intro t
    induction t with
    | nil => rfl
    | cons a t ih => cases a <;> simpa using ih
  refine ⟨rfl, ?_, rfl, ?_, ?_⟩
  · intro signals
    cases signals with
    | nil => simp [captureEnabled, isVideoReadyAfter]
    | cons a t =>
      constructor
      · intro _
        exact List.cons_ne_nil a t
      · intro _
        show isVideoReadyAfter (a :: t) = true
        unfold isVideoReadyAfter
        rw [List.foldl_cons]
        cases a <;> simpa using hstep t
  · intro vw vh sw sh h hsw hsh
    have hfb : fallbackDims vw vh (some (sw, sh)) = (sw, sh) := by
      unfold fallbackDims
      rw [if_pos h]
      simp [hsw, hsh]
    unfold captureDims
    rw [hfb]
    simp [hsw, hsh]
  · intro vw vh ts w h hcap
    unfold captureDims at hcap
    split at hcap
    · exact Option.noConfusion hcap
    · next hd =>
        push_neg at hd
        have hfb := Option.some.inj hcap
        rw [hfb] at hd
        exact hd

/-- Witness for C9: a zero-size frame buffer with `640 × 480` track settings
captures at `640 × 480`, which is nonzero in both dimensions. -/
theorem capture_readiness_and_fallback_witness :
    captureDims 0 0 (some (640, 480)) = some (640, 480) ∧
      ((640 : ℕ) ≠ 0 ∧ (480 : ℕ) ≠ 0) :=
  ⟨capture_readiness_and_fallback.2.2.2.1 0 0 640 480 (Or.inl rfl)
      (by decide) (by decide),
    capture_readiness_and_fallback.2.2.2.2 0 0 (some (640, 480)) 640 480
      (by decide)⟩

end DocSnap
